import Mathlib

/-!
Verification development for the AlgoPortfolio repository.

The development shallowly embeds the accounting core (the position ledger:
PortfolioRepository and PortfolioService in src/services/database), the
command-layer validation (src/bot/handlers/add.py, sell.py, history.py),
and the resilient quote client (src/services/market_data/yfinance_provider.py,
rendering policy from src/bot/handlers/analysis.py).

Modelling conventions:
- The SQLite store is modelled as an explicit `Store` value holding the three
  relations (portfolios, holdings, transactions); every repository method
  becomes a pure function from a store to a store and a result.
- Python `float` quantities and prices are modelled as exact rationals in the
  main ledger model; the numeric-representation question (decimal versus
  binary floating point) is treated separately with an explicit binary64
  rounding model (`roundB64` below) of the same arithmetic.
- Row ids and write timestamps are drawn from a single monotone counter
  `next_id`, modelling SQLite autoincrement ids and creation-ordered
  timestamps.
- SQL `ORDER BY` is modelled with `List.insertionSort` over the order key;
  `WHERE` with `List.filter`; a unique-key lookup with `List.find?`.
- String keys are compared with a character-code lexicographic comparison
  `chLe`, and Python `str.upper` / `str.isalpha` are modelled on the
  underlying character list.
-/

set_option maxRecDepth 4000

/-- Lexicographic order on character lists by character code, modelling the
ordering of text keys in the SQL `ORDER BY symbol` clause. -/
def chLe : List Char → List Char → Bool
  | [], _ => true
  | _ :: _, [] => false
  | a :: as, b :: bs =>
    if a.toNat < b.toNat then true
    else if b.toNat < a.toNat then false
    else chLe as bs

theorem chLe_total : ∀ as bs, chLe as bs = true ∨ chLe bs as = true := by
  intro as
  induction as with
  | nil => intro bs; left; rfl
  | cons a as ih =>
    intro bs
    cases bs with
    | nil => right; rfl
    | cons b bs =>
      by_cases hab : a.toNat < b.toNat
      · left; simp [chLe, hab]
      · by_cases hba : b.toNat < a.toNat
        · right; simp [chLe, hba]
        · rcases ih bs with h | h
          · left; simp [chLe, hab, hba, h]
          · right; simp [chLe, hab, hba, h]

theorem chLe_trans : ∀ as bs cs, chLe as bs = true → chLe bs cs = true →
    chLe as cs = true := by
  intro as
  induction as with
  | nil => intro bs cs _ _; rfl
  | cons a as ih =>
    intro bs cs h1 h2
    cases bs with
    | nil => simp [chLe] at h1
    | cons b bs =>
      cases cs with
      | nil => simp [chLe] at h2
      | cons c cs =>
        simp only [chLe] at h1 h2 ⊢
        by_cases hab : a.toNat < b.toNat
        · by_cases hbc : b.toNat < c.toNat
          · simp [show a.toNat < c.toNat by omega]
          · by_cases hcb : c.toNat < b.toNat
            · simp [chLe, hcb] at h2; omega
            · simp [show a.toNat < c.toNat by omega]
        · by_cases hba : b.toNat < a.toNat
          · simp [chLe, hab, hba] at h1
          · by_cases hbc : b.toNat < c.toNat
            · simp [show a.toNat < c.toNat by omega]
            · by_cases hcb : c.toNat < b.toNat
              · simp [chLe, hcb] at h2; omega
              · have hac : ¬ a.toNat < c.toNat := by omega
                have hca : ¬ c.toNat < a.toNat := by omega
                simp only [hab, hba, if_false, hac, hca] at h1 ⊢
                simp only [hbc, hcb, if_false] at h2
                exact ih bs cs h1 h2

/-- Python `str.upper()`, modelled on the character list of the string. -/
def pyUpper (s : String) : String := ⟨s.data.map Char.toUpper⟩

/-- Validation used by the /add and /sell command handlers:
`symbol.isalpha() and len(symbol) <= 10` (Python `isalpha` is false on the
empty string). -/
def pySymbolOk (s : String) : Bool :=
  !s.data.isEmpty && s.data.all Char.isAlpha && s.data.length ≤ 10

/-- Powers of two in the rationals, used by the binary64 rounding model. -/
def qpow2 : Nat → ℚ
  | 0 => 1
  | n + 1 => 2 * qpow2 n

/-- Round a rational to the nearest integer with ties to even (IEEE 754
default rounding of the significand). -/
def roundTE (x : ℚ) : ℤ :=
  let f := ⌊x⌋
  if x - f < 1 / 2 then f
  else if (1 : ℚ) / 2 < x - f then f + 1
  else if f % 2 = 0 then f else f + 1

/-- Scale a positive rational into the interval [1, 2) by powers of two,
returning the mantissa and the exponent. The fuel bounds the loop; the value
80 used below covers every magnitude reachable in this code path. -/
def norm2 : Nat → ℚ → ℤ → ℚ × ℤ
  | 0, a, e => (a, e)
  | fuel + 1, a, e =>
    if a < 1 then norm2 fuel (a * 2) (e - 1)
    else if 2 ≤ a then norm2 fuel (a / 2) (e + 1)
    else (a, e)

/-- Round a rational to the nearest IEEE 754 binary64 value (normal range;
subnormals and overflow do not occur for the magnitudes used here). This is
the value semantics of a Python `float`. -/
def roundB64 (a : ℚ) : ℚ :=
  if a = 0 then 0
  else
    let x := if a < 0 then -a else a
    let p := norm2 80 x 0
    let sig : ℤ := roundTE (p.1 * qpow2 52)
    let mag : ℚ :=
      if 0 ≤ p.2 - 52 then (sig : ℚ) * qpow2 (p.2 - 52).toNat
      else (sig : ℚ) / qpow2 (52 - p.2).toNat
    if a < 0 then -mag else mag

/-- Binary64 addition: exact sum, then one rounding. -/
def fadd (a b : ℚ) : ℚ := roundB64 (a + b)

/-- Binary64 multiplication: exact product, then one rounding. -/
def fmul (a b : ℚ) : ℚ := roundB64 (a * b)

/-- Binary64 division: exact quotient, then one rounding. -/
def fdiv (a b : ℚ) : ℚ := roundB64 (a / b)

/-- Row of the portfolios relation (models/portfolio.py `Portfolio`;
`created_at` and the portfolio name play no role in any claim and are
omitted). -/
structure Portfolio where
  id : Nat
  telegram_user_id : Int
deriving DecidableEq

/-- Row of the holdings relation (models/portfolio.py `Holding`; `created_at`
plays no role in any claim and is omitted). -/
structure Holding where
  id : Nat
  portfolio_id : Nat
  symbol : String
  quantity : ℚ
  avg_cost : ℚ
deriving DecidableEq

/-- Total cost basis of a holding (models/portfolio.py `Holding.total_cost`). -/
def Holding.total_cost (h : Holding) : ℚ := h.quantity * h.avg_cost

/-- Kind of a ledger entry (models/portfolio.py `TransactionType`). -/
inductive TransactionType where
  | BUY
  | SELL
deriving DecidableEq

/-- Row of the transactions relation (models/portfolio.py `Transaction`).
The timestamp is the write-time creation order. -/
structure Transaction where
  id : Nat
  holding_id : Nat
  transaction_type : TransactionType
  quantity : ℚ
  price : ℚ
  timestamp : Nat
deriving DecidableEq

/-- The durable SQLite store: the three relations plus the monotone counter
supplying autoincrement ids and creation-ordered timestamps. -/
structure Store where
  portfolios : List Portfolio
  holdings : List Holding
  transactions : List Transaction
  next_id : Nat
deriving DecidableEq

/-- Order key of the active-holdings view: `ORDER BY symbol`. -/
def symLe (a b : Holding) : Prop := chLe a.symbol.data b.symbol.data = true

instance : DecidableRel symLe := fun _ _ => instDecidableEqBool _ _

instance : IsTotal Holding symLe := ⟨fun a b => chLe_total a.symbol.data b.symbol.data⟩

instance : IsTrans Holding symLe :=
  ⟨fun a b c => chLe_trans a.symbol.data b.symbol.data c.symbol.data⟩

/-- Order key of the transaction history view: `ORDER BY timestamp DESC`. -/
def tsDesc (a b : Transaction × String) : Prop := b.1.timestamp ≤ a.1.timestamp

instance : DecidableRel tsDesc := fun a b => Nat.decLe b.1.timestamp a.1.timestamp

instance : IsTotal (Transaction × String) tsDesc :=
  ⟨fun a b => Nat.le_total b.1.timestamp a.1.timestamp⟩

instance : IsTrans (Transaction × String) tsDesc :=
  ⟨fun _ _ _ h1 h2 => Nat.le_trans h2 h1⟩

namespace PortfolioRepository

/-- `SELECT ... FROM portfolios WHERE telegram_user_id = ?`
(portfolio_repo.py `get_portfolio`). -/
def get_portfolio (st : Store) (user_id : Int) : Option Portfolio :=
  st.portfolios.find? (fun p => decide (p.telegram_user_id = user_id))

/-- `INSERT INTO portfolios ...`; on an integrity conflict the existing row is
fetched instead (portfolio_repo.py `create_portfolio`). -/
def create_portfolio (st : Store) (user_id : Int) : Store × Portfolio :=
  match get_portfolio st user_id with
  | some p => (st, p)
  | none =>
    let p : Portfolio := ⟨st.next_id, user_id⟩
    ({ st with portfolios := st.portfolios ++ [p], next_id := st.next_id + 1 }, p)

/-- Fetch the portfolio of a user or create it
(portfolio_repo.py `get_or_create_portfolio`). -/
def get_or_create_portfolio (st : Store) (user_id : Int) : Store × Portfolio :=
  match get_portfolio st user_id with
  | some p => (st, p)
  | none => create_portfolio st user_id

/-- `SELECT ... FROM holdings WHERE portfolio_id = ? AND symbol = ?` - note
that there is no quantity filter, so a retained zero-quantity row is found
(portfolio_repo.py `get_holding_by_symbol`). -/
def get_holding_by_symbol (st : Store) (portfolio_id : Nat) (symbol : String) :
    Option Holding :=
  let s := pyUpper symbol
  st.holdings.find? (fun h => decide (h.portfolio_id = portfolio_id ∧ h.symbol = s))

/-- `INSERT INTO transactions ...` with a write-time timestamp
(portfolio_repo.py `record_transaction`). -/
def record_transaction (st : Store) (holding_id : Nat) (t : TransactionType)
    (quantity price : ℚ) : Store × Transaction :=
  let tx : Transaction := ⟨st.next_id, holding_id, t, quantity, price, st.next_id⟩
  ({ st with transactions := st.transactions ++ [tx], next_id := st.next_id + 1 }, tx)

/-- Add a new holding or merge into an existing one with the weighted-average
cost update, then record the BUY transaction with the incoming quantity and
price (portfolio_repo.py `add_holding`). -/
def add_holding (st : Store) (portfolio_id : Nat) (symbol : String)
    (quantity price : ℚ) : Store × Holding :=
  let s := pyUpper symbol
  match get_holding_by_symbol st portfolio_id s with
  | some existing =>
    let new_quantity := existing.quantity + quantity
    let new_avg_cost := (existing.total_cost + quantity * price) / new_quantity
    let h : Holding := { existing with quantity := new_quantity, avg_cost := new_avg_cost }
    let st1 := { st with
      holdings := st.holdings.map (fun x => if x.id = existing.id then h else x) }
    ((record_transaction st1 h.id TransactionType.BUY quantity price).1, h)
  | none =>
    let h : Holding := ⟨st.next_id, portfolio_id, s, quantity, price⟩
    let st1 := { st with holdings := st.holdings ++ [h], next_id := st.next_id + 1 }
    ((record_transaction st1 h.id TransactionType.BUY quantity price).1, h)

/-- `UPDATE holdings SET quantity = ?, avg_cost = ? WHERE id = ?`
(portfolio_repo.py `update_holding`). -/
def update_holding (st : Store) (holding_id : Nat) (quantity avg_cost : ℚ) : Store :=
  let hs := st.holdings.map
    (fun x => if x.id = holding_id then { x with quantity := quantity, avg_cost := avg_cost } else x)
  { st with holdings := hs }

/-- `UPDATE holdings SET quantity = 0 WHERE id = ?` - the row is retained,
never deleted (portfolio_repo.py `remove_holding`). -/
def remove_holding (st : Store) (holding_id : Nat) : Store :=
  let hs := st.holdings.map
    (fun x => if x.id = holding_id then { x with quantity := (0 : ℚ) } else x)
  { st with holdings := hs }

/-- `SELECT ... FROM holdings WHERE portfolio_id = ? AND quantity > 0 ORDER BY
symbol` (portfolio_repo.py `get_holdings`). -/
def get_holdings (st : Store) (portfolio_id : Nat) : List Holding :=
  List.insertionSort symLe
    (st.holdings.filter (fun h => decide (h.portfolio_id = portfolio_id ∧ 0 < h.quantity)))

/-- The transactions of a portfolio joined with the holding symbol, most
recent first, at most `limit` rows: `SELECT ... FROM transactions t JOIN
holdings h ON t.holding_id = h.id WHERE h.portfolio_id = ? ORDER BY
t.timestamp DESC LIMIT ?` (portfolio_repo.py `get_all_transactions`). -/
def get_all_transactions (st : Store) (portfolio_id : Nat) (limit : Nat) :
    List (Transaction × String) :=
  let joined := st.transactions.filterMap (fun t =>
    match st.holdings.find? (fun h => decide (h.id = t.holding_id)) with
    | some h => if h.portfolio_id = portfolio_id then some (t, h.symbol) else none
    | none => none)
  (List.insertionSort tsDesc joined).take limit

end PortfolioRepository

/-- Outcome of the service-level sell path (portfolio_service.py
`sell_holding`): `notHeld` models the `None` return, `insufficientHoldings`
models the `ValueError` reporting the owned quantity, and `sold` carries the
returned updated holding. -/
inductive SellOutcome where
  | notHeld
  | insufficientHoldings (owned : ℚ)
  | sold (h : Holding)
deriving DecidableEq

namespace PortfolioService

/-- Service-level buy (portfolio_service.py `add_holding`): resolve or create
the portfolio, then delegate to the repository with the uppercased symbol. -/
def add_holding (st : Store) (user_id : Int) (symbol : String)
    (quantity purchase_price : ℚ) : Store × Holding :=
  let p := PortfolioRepository.get_or_create_portfolio st user_id
  PortfolioRepository.add_holding p.1 p.2.id (pyUpper symbol) quantity purchase_price

/-- Service-level sell (portfolio_service.py `sell_holding`): `None` when no
portfolio or no holding row is found, a `ValueError` when selling more than
owned, otherwise update or zero the holding, record the SELL transaction and
return the updated holding value. -/
def sell_holding (st : Store) (user_id : Int) (symbol : String)
    (quantity sell_price : ℚ) : Store × SellOutcome :=
  match PortfolioRepository.get_portfolio st user_id with
  | none => (st, SellOutcome.notHeld)
  | some portfolio =>
    match PortfolioRepository.get_holding_by_symbol st portfolio.id symbol with
    | none => (st, SellOutcome.notHeld)
    | some holding =>
      if holding.quantity < quantity then
        (st, SellOutcome.insufficientHoldings holding.quantity)
      else
        let new_quantity := holding.quantity - quantity
        let st1 :=
          if new_quantity ≤ 0 then PortfolioRepository.remove_holding st holding.id
          else PortfolioRepository.update_holding st holding.id new_quantity holding.avg_cost
        let st2 :=
          (PortfolioRepository.record_transaction st1 holding.id TransactionType.SELL
            quantity sell_price).1
        (st2, SellOutcome.sold
          { id := holding.id
            portfolio_id := portfolio.id
            symbol := pyUpper symbol
            quantity := if new_quantity ≤ 0 then 0 else new_quantity
            avg_cost := holding.avg_cost })

/-- Service-level transaction history (portfolio_service.py
`get_transactions`): empty when the user has no portfolio, otherwise the
joined rows with the caller-supplied limit passed straight through. -/
def get_transactions (st : Store) (user_id : Int) (limit : Nat) :
    List (Transaction × String) :=
  match PortfolioRepository.get_portfolio st user_id with
  | none => []
  | some portfolio => PortfolioRepository.get_all_transactions st portfolio.id limit

end PortfolioService

/-- Outcome of the /add command handler (bot/handlers/add.py): the three
typed validation replies, or success. -/
inductive AddOutcome where
  | invalidSymbol
  | invalidQuantity
  | invalidPrice
  | added (h : Holding)
deriving DecidableEq

/-- The /add command (bot/handlers/add.py `add_command`), after argument
parsing: validate the symbol, the quantity and the price in that order and
reply without touching the store on failure; otherwise call the service. -/
def add_command (st : Store) (user_id : Int) (symbol : String)
    (quantity price : ℚ) : Store × AddOutcome :=
  let s := pyUpper symbol
  if ¬ pySymbolOk s then (st, AddOutcome.invalidSymbol)
  else if quantity ≤ 0 then (st, AddOutcome.invalidQuantity)
  else if price ≤ 0 then (st, AddOutcome.invalidPrice)
  else
    let r := PortfolioService.add_holding st user_id s quantity price
    (r.1, AddOutcome.added r.2)

/-- Outcome of the /sell command handler (bot/handlers/sell.py): the three
typed validation replies, the not-owned reply, the cannot-sell reply carrying
the owned quantity, or success. -/
inductive SellCmdOutcome where
  | invalidSymbol
  | invalidQuantity
  | invalidPrice
  | notOwned
  | cannotSell (owned : ℚ)
  | sold (h : Holding)
deriving DecidableEq

/-- The /sell command (bot/handlers/sell.py `sell_command`), after argument
parsing: the same validation order as /add, then the service sell with its
three outcomes mapped to replies. -/
def sell_command (st : Store) (user_id : Int) (symbol : String)
    (quantity price : ℚ) : Store × SellCmdOutcome :=
  let s := pyUpper symbol
  if ¬ pySymbolOk s then (st, SellCmdOutcome.invalidSymbol)
  else if quantity ≤ 0 then (st, SellCmdOutcome.invalidQuantity)
  else if price ≤ 0 then (st, SellCmdOutcome.invalidPrice)
  else
    let r := PortfolioService.sell_holding st user_id s quantity price
    match r.2 with
    | SellOutcome.notHeld => (r.1, SellCmdOutcome.notOwned)
    | SellOutcome.insufficientHoldings owned => (r.1, SellCmdOutcome.cannotSell owned)
    | SellOutcome.sold h => (r.1, SellCmdOutcome.sold h)

/-- Default and maximum history page size (bot/handlers/history.py
`DEFAULT_LIMIT` and `MAX_LIMIT`). -/
def DEFAULT_LIMIT : Nat := 10

/-- Ceiling applied by the /history handler to the caller-supplied limit. -/
def MAX_LIMIT : Nat := 50

/-- Outcome of the /history command handler (bot/handlers/history.py). -/
inductive HistoryOutcome where
  | invalidLimit
  | entries (rows : List (Transaction × String))
deriving DecidableEq

/-- The /history command (bot/handlers/history.py `history_command`): an
absent argument uses the default limit; a non-positive limit is rejected; a
limit above the ceiling is clamped to the ceiling before the service call. -/
def history_command (st : Store) (user_id : Int) (requested : Option Int) :
    HistoryOutcome :=
  match requested with
  | none => HistoryOutcome.entries (PortfolioService.get_transactions st user_id DEFAULT_LIMIT)
  | some l =>
    if l ≤ 0 then HistoryOutcome.invalidLimit
    else
      let limit := if l > (MAX_LIMIT : Int) then MAX_LIMIT else l.toNat
      HistoryOutcome.entries (PortfolioService.get_transactions st user_id limit)

/-- Retry bound of the quote client (yfinance_provider.py `MAX_RETRIES`). -/
def MAX_RETRIES : Nat := 3

/-- Base backoff delay in seconds (yfinance_provider.py `BASE_DELAY`). -/
def BASE_DELAY : ℚ := 2

/-- One attempt of the underlying provider call: either a payload, or an
error classified by the rate-limit test `"429" in str(e) or "too many
requests" in str(e).lower()`. -/
inductive AttemptOutcome (α : Type) where
  | ok (payload : α)
  | error (rateLimited : Bool)

/-- Result of the retry loop: the payload or the propagated error, together
with the number of attempts consumed and the sleeps performed. -/
inductive FetchResult (α : Type) where
  | ok (payload : α) (attempts : Nat) (sleeps : List ℚ)
  | raised (rateLimited : Bool) (attempts : Nat) (sleeps : List ℚ)
deriving DecidableEq

/-- Backoff before the retry that follows `attempt`:
`BASE_DELAY * (2 ** attempt) + random.uniform(0, 1)`. -/
def backoffDelay (jitter : Nat → ℚ) (attempt : Nat) : ℚ :=
  BASE_DELAY * 2 ^ attempt + jitter attempt

/-- The retry loop of yfinance_provider.py `_fetch_ticker_info`, recursing on
the number of attempts remaining after the current one. A success returns
immediately; a rate-limited error with attempts remaining sleeps the backoff
delay and retries; any other error, or a rate-limited error on the final
attempt, is propagated at once. -/
def fetch_loop (attempts : Nat → AttemptOutcome α) (jitter : Nat → ℚ) :
    Nat → Nat → List ℚ → FetchResult α
  | 0, attempt, sleeps =>
    match attempts attempt with
    | AttemptOutcome.ok v => FetchResult.ok v (attempt + 1) sleeps
    | AttemptOutcome.error rl => FetchResult.raised rl (attempt + 1) sleeps
  | fuel + 1, attempt, sleeps =>
    match attempts attempt with
    | AttemptOutcome.ok v => FetchResult.ok v (attempt + 1) sleeps
    | AttemptOutcome.error rl =>
      if rl then
        fetch_loop attempts jitter fuel (attempt + 1)
          (sleeps ++ [backoffDelay jitter attempt])
      else FetchResult.raised rl (attempt + 1) sleeps

/-- yfinance_provider.py `_fetch_ticker_info`: the retry loop started at
attempt 0 with `MAX_RETRIES - 1` retries remaining. -/
def fetch_ticker_info (attempts : Nat → AttemptOutcome α) (jitter : Nat → ℚ) :
    FetchResult α :=
  fetch_loop attempts jitter (MAX_RETRIES - 1) 0 []

/-- The loosely-typed provider payload (the fields of the yfinance `info`
dictionary that the embedded code paths read; an absent key is `none`). -/
structure RawInfo where
  hasSymbol : Bool
  currentPrice : Option ℚ
  regularMarketPrice : Option ℚ
  previousClose : Option ℚ
  regularMarketPreviousClose : Option ℚ
  dividendYield : Option ℚ
deriving DecidableEq

/-- Python `a or b` on optional numbers: `None` and `0` are both falsy. -/
def pyOr (a b : Option ℚ) : Option ℚ :=
  match a with
  | none => b
  | some x => if x = 0 then b else some x

/-- The price fields of the quote (models/stock.py `StockPrice`; volume,
currency and timestamp play no role in any claim and are omitted). -/
structure StockPrice where
  symbol : String
  price : ℚ
  change : ℚ
  change_percent : ℚ
deriving DecidableEq

/-- Outcome of yfinance_provider.py `get_price`: `symbolNotFound` models
`SymbolNotFoundError`, `dataFetchError` models `DataFetchError`. -/
inductive PriceResult where
  | symbolNotFound
  | dataFetchError
  | ok (p : StockPrice)
deriving DecidableEq

/-- yfinance_provider.py `get_price` on a fetched payload (`none` models the
underlying fetch raising, which the handler wraps into `DataFetchError`).
The current price falls back from `currentPrice` to `regularMarketPrice` via
Python `or`; a falsy resolved price raises `DataFetchError`; a falsy previous
close yields zero change and change percent. -/
def get_price (symbol : String) (fetched : Option RawInfo) : PriceResult :=
  match fetched with
  | none => PriceResult.dataFetchError
  | some info =>
    if ¬ info.hasSymbol then PriceResult.symbolNotFound
    else
      let current_price := pyOr info.currentPrice info.regularMarketPrice
      let previous_close := pyOr info.previousClose info.regularMarketPreviousClose
      match current_price with
      | none => PriceResult.dataFetchError
      | some cp =>
        if cp = 0 then PriceResult.dataFetchError
        else
          let change := match previous_close with
            | none => 0
            | some pc => if pc = 0 then 0 else cp - pc
          let change_percent := match previous_close with
            | none => 0
            | some pc => if pc = 0 then 0 else (cp - pc) / pc * 100
          PriceResult.ok ⟨pyUpper symbol, cp, change, change_percent⟩

/-- The descriptive fields of the quote (models/stock.py `StockInfo`; only
the fields a claim mentions are kept). -/
structure StockInfo where
  symbol : String
  dividend_yield : Option ℚ
deriving DecidableEq

/-- Outcome of yfinance_provider.py `get_info`. -/
inductive InfoResult where
  | symbolNotFound
  | dataFetchError
  | ok (i : StockInfo)
deriving DecidableEq

/-- yfinance_provider.py `get_info` on a fetched payload: the dividend yield
is `info.get("dividendYield")`, passed through unmodified. -/
def get_info (symbol : String) (fetched : Option RawInfo) : InfoResult :=
  match fetched with
  | none => InfoResult.dataFetchError
  | some info =>
    if ¬ info.hasSymbol then InfoResult.symbolNotFound
    else InfoResult.ok ⟨pyUpper symbol, info.dividendYield⟩

/-- Dividend-yield rendering policy of bot/handlers/analysis.py
`format_analysis_message`: a falsy yield (absent or zero) renders as N/A
(`none`); a value below the 0.15 threshold is treated as a fraction of 1 and
multiplied by 100; a value at or above 0.15 is already a percentage. The
returned rational is the percentage figure formatted into the reply. -/
def renderedDividendYield (dy : Option ℚ) : Option ℚ :=
  match dy with
  | none => none
  | some v =>
    if v = 0 then none
    else some (if v < 15 / 100 then v * 100 else v)

/-- The buy position update of portfolio_repo.py `add_holding`, isolated as a
state kernel on the optional (quantity, avg_cost) pair of the affected
holding, in exact arithmetic. -/
def applyBuy : Option (ℚ × ℚ) → ℚ × ℚ → ℚ × ℚ
  | none, (q, p) => (q, p)
  | some (q0, c0), (q, p) => (q0 + q, (q0 * c0 + q * p) / (q0 + q))

/-- The same buy position update under binary64 float semantics: each Python
arithmetic operator rounds its exact result to the nearest double, as the
repository code does after portfolio_service.py converts the Decimal inputs
with `float(...)`. -/
def applyBuyFloat : Option (ℚ × ℚ) → ℚ × ℚ → ℚ × ℚ
  | none, (q, p) => (q, p)
  | some (q0, c0), (q, p) =>
    (fadd q0 q, fdiv (fadd (fmul q0 c0) (fmul q p)) (fadd q0 q))

/-- A sequence of service-level buys folded over the store
(PortfolioService.add_holding applied per (quantity, price) pair). -/
def buyFold (user_id : Int) (symbol : String) :
    Store → List (ℚ × ℚ) → Store
  | st, [] => st
  | st, (q, p) :: rest =>
    buyFold user_id symbol (PortfolioService.add_holding st user_id symbol q p).1 rest

/-- A map that does not change the truth of the search predicate on any
element commutes with `find?`. -/
theorem find?_map_pred {α : Type} (f : α → α) (p : α → Bool) :
    ∀ l : List α, (∀ a ∈ l, p (f a) = p a) →
      (l.map f).find? p = (l.find? p).map f := by
  intro l
  induction l with
  | nil => intro _; rfl
  | cons a l ih =>
    intro hp
    by_cases ha : p a
    · rw [List.map_cons, List.find?_cons_of_pos _ ha,
        List.find?_cons_of_pos _ (by rw [hp a (List.mem_cons_self a l)]; exact ha)]
      rfl
    · rw [List.map_cons, List.find?_cons_of_neg _ ha,
        List.find?_cons_of_neg _ (by rw [hp a (List.mem_cons_self a l)]; exact ha)]
      exact ih (fun x hx => hp x (List.mem_cons_of_mem a hx))

/-- In a list whose keys are pairwise distinct, two members with the same key
are the same element. -/
theorem eq_of_nodup_keys {α β : Type} (k : α → β) {l : List α}
    (hn : (l.map k).Nodup) {a b : α} (ha : a ∈ l) (hb : b ∈ l)
    (hk : k a = k b) : a = b := by
  by_contra hne
  exact (List.pairwise_map.mp hn).forall
    (fun x y (h : k x ≠ k y) => fun e => h e.symm) ha hb hne hk

/-- Searching a nodup-key list for the key of a known member returns exactly
that member. -/
theorem find?_by_key_of_mem {α β : Type} [DecidableEq β] (k : α → β) {l : List α}
    (hn : (l.map k).Nodup) {h0 : α} (hm : h0 ∈ l) :
    l.find? (fun x => decide (k x = k h0)) = some h0 := by
  have hsome : (l.find? (fun x => decide (k x = k h0))).isSome := by
    rw [List.find?_isSome]
    exact ⟨h0, hm, by simp⟩
  obtain ⟨x, hx⟩ := Option.isSome_iff_exists.mp hsome
  have hxk : k x = k h0 := by simpa using List.find?_some hx
  have hxm : x ∈ l := List.mem_of_find?_eq_some hx
  rw [hx, eq_of_nodup_keys k hn hxm hm hxk]

/-- A `filterMap` whose function succeeds on every element of the list is a
`map`. -/
theorem filterMap_eq_map_of {α β : Type} (f : α → Option β) (g : α → β) :
    ∀ l : List α, (∀ a ∈ l, f a = some (g a)) → l.filterMap f = l.map g := by
  intro l
  induction l with
  | nil => intro _; rfl
  | cons a l ih =>
    intro hp
    rw [List.filterMap_cons, hp a (List.mem_cons_self a l), List.map_cons,
      ih (fun x hx => hp x (List.mem_cons_of_mem a hx))]

/-- Store with one portfolio (user 7) and one retained zero-quantity AAPL
position row, as left behind by a sell that closed the position. -/
def stZero : Store :=
  { portfolios := [⟨1, 7⟩]
    holdings := [⟨2, 1, "AAPL", 0, 150⟩]
    transactions := []
    next_id := 3 }

/-- Claim C3 (counterexample): a sell against a retained zero-quantity
position row does not return the nothing-to-sell sentinel, although no active
position (quantity > 0) exists for the symbol; it fails with
InsufficientHoldings reporting a held quantity of 0. -/
theorem sell_zero_position_not_sentinel :
    PortfolioRepository.get_holdings stZero 1 = [] ∧
    (PortfolioService.sell_holding stZero 7 "AAPL" 5 10).2 =
      SellOutcome.insufficientHoldings 0 ∧
    (PortfolioService.sell_holding stZero 7 "AAPL" 5 10).2 ≠ SellOutcome.notHeld := by
  have hU : pyUpper "AAPL" = "AAPL" := by decide
  refine ⟨?_, ?_, ?_⟩
  · norm_num [PortfolioRepository.get_holdings, stZero, List.filter_cons,
      List.insertionSort]
  · norm_num [PortfolioService.sell_holding, PortfolioRepository.get_portfolio,
      PortfolioRepository.get_holding_by_symbol, hU, stZero, List.find?_cons]
  · norm_num [PortfolioService.sell_holding, PortfolioRepository.get_portfolio,
      PortfolioRepository.get_holding_by_symbol, hU, stZero, List.find?_cons]
    intro h
    exact SellOutcome.noConfusion h

/-- Claim C3 (amended): the failure outcomes of the service sell partition by
what the store holds. When no portfolio row or no holding row (of any
quantity) exists for the symbol, the nothing-to-sell sentinel is returned;
when a holding row exists whose quantity is strictly below the requested
quantity - including a retained zero-quantity row - the sell fails with
InsufficientHoldings reporting the held quantity; in every failure case the
store is returned unchanged. -/
theorem recordSell_failure_partition (st : Store) (uid : Int) (sym : String)
    (q p : ℚ) :
    (PortfolioRepository.get_portfolio st uid = none →
      PortfolioService.sell_holding st uid sym q p = (st, SellOutcome.notHeld)) ∧
    (∀ pf, PortfolioRepository.get_portfolio st uid = some pf →
      PortfolioRepository.get_holding_by_symbol st pf.id sym = none →
      PortfolioService.sell_holding st uid sym q p = (st, SellOutcome.notHeld)) ∧
    (∀ pf h0, PortfolioRepository.get_portfolio st uid = some pf →
      PortfolioRepository.get_holding_by_symbol st pf.id sym = some h0 →
      h0.quantity < q →
      PortfolioService.sell_holding st uid sym q p =
        (st, SellOutcome.insufficientHoldings h0.quantity)) := by
  refine ⟨fun h => ?_, fun pf hpf hh => ?_, fun pf h0 hpf hh hlt => ?_⟩
  · simp [PortfolioService.sell_holding, h]
  · simp [PortfolioService.sell_holding, hpf, hh]
  · simp [PortfolioService.sell_holding, hpf, hh, hlt]

/-- Witness for the amended claim C3 at concrete stores: an unknown user, an
unknown symbol, and a retained zero-quantity row. -/
theorem recordSell_failure_partition_witness :
    PortfolioService.sell_holding stZero 99 "AAPL" 5 10 = (stZero, SellOutcome.notHeld) ∧
    PortfolioService.sell_holding stZero 7 "MSFT" 5 10 = (stZero, SellOutcome.notHeld) ∧
    PortfolioService.sell_holding stZero 7 "AAPL" 5 10 =
      (stZero, SellOutcome.insufficientHoldings 0) := by
  have hU : pyUpper "MSFT" = "MSFT" := by decide
  have h1 : PortfolioRepository.get_portfolio stZero 99 = none := by
    norm_num [PortfolioRepository.get_portfolio, stZero, List.find?_cons]
  have h2 : PortfolioRepository.get_portfolio stZero 7 = some ⟨1, 7⟩ := by
    norm_num [PortfolioRepository.get_portfolio, stZero, List.find?_cons]
  have h3 : PortfolioRepository.get_holding_by_symbol stZero 1 "MSFT" = none := by
    norm_num [PortfolioRepository.get_holding_by_symbol, hU, stZero, List.find?_cons]
    decide
  have h4 : PortfolioRepository.get_holding_by_symbol stZero 1 "AAPL" =
      some ⟨2, 1, "AAPL", 0, 150⟩ := by
    have hA : pyUpper "AAPL" = "AAPL" := by decide
    norm_num [PortfolioRepository.get_holding_by_symbol, hA, stZero, List.find?_cons]
  exact ⟨(recordSell_failure_partition stZero 99 "AAPL" 5 10).1 h1,
    (recordSell_failure_partition stZero 7 "MSFT" 5 10).2.1 ⟨1, 7⟩ h2 h3,
    (recordSell_failure_partition stZero 7 "AAPL" 5 10).2.2 ⟨1, 7⟩
      ⟨2, 1, "AAPL", 0, 150⟩ h2 h4 (by norm_num)⟩

/-- Characterization of an accepted service-level sell, shared by the
sell-effect and position-retention results below. -/
theorem sell_accepted_eq (st : Store) (uid : Int) (sym : String) (q p : ℚ)
    (pf : Portfolio) (h0 : Holding)
    (hpf : PortfolioRepository.get_portfolio st uid = some pf)
    (hh : PortfolioRepository.get_holding_by_symbol st pf.id sym = some h0)
    (hq : q ≤ h0.quantity)
    (hn : (st.holdings.map Holding.id).Nodup) :
    PortfolioService.sell_holding st uid sym q p =
      ({ st with
          holdings := st.holdings.map (fun x =>
            if x.id = h0.id then
              { x with quantity := h0.quantity - q, avg_cost := h0.avg_cost }
            else x)
          transactions := st.transactions ++
            [⟨st.next_id, h0.id, TransactionType.SELL, q, p, st.next_id⟩]
          next_id := st.next_id + 1 },
        SellOutcome.sold
          { id := h0.id, portfolio_id := pf.id, symbol := pyUpper sym,
            quantity := h0.quantity - q, avg_cost := h0.avg_cost }) := by
  have hfind : st.holdings.find?
      (fun h => decide (h.portfolio_id = pf.id ∧ h.symbol = pyUpper sym)) = some h0 := by
    simpa [PortfolioRepository.get_holding_by_symbol] using hh
  have hmem : h0 ∈ st.holdings := List.mem_of_find?_eq_some hfind
  have hnl : ¬ (h0.quantity < q) := not_lt.mpr hq
  by_cases hz : h0.quantity - q ≤ 0
  · have hz0 : h0.quantity - q = 0 := le_antisymm hz (by linarith)
    have hmap : (st.holdings.map fun x =>
          if x.id = h0.id then { x with quantity := (0 : ℚ) } else x)
        = st.holdings.map (fun x =>
          if x.id = h0.id then
            { x with quantity := h0.quantity - q, avg_cost := h0.avg_cost }
          else x) := by
      refine List.map_congr_left ?_
      intro x hx
      by_cases hid : x.id = h0.id
      · have hxe : x = h0 := eq_of_nodup_keys Holding.id hn hx hmem hid
        subst hxe
        simp [hz0]
      · simp [hid]
    simp only [PortfolioService.sell_holding, hpf, hh, hnl, if_false,
      PortfolioRepository.remove_holding, PortfolioRepository.update_holding,
      PortfolioRepository.record_transaction]
    simp only [hz, if_true]
    rw [hmap, hz0]
  · simp only [PortfolioService.sell_holding, hpf, hh, hnl, if_false,
      PortfolioRepository.remove_holding, PortfolioRepository.update_holding,
      PortfolioRepository.record_transaction]
    simp only [hz, if_false]

/-- Claim C2: an accepted sell of quantity q at price p against a holding of
quantity q0 >= q decrements the stored quantity to q0 - q and leaves every
avg_cost unchanged, appends exactly one SELL ledger entry carrying the sold
quantity and the sell price, and returns the updated (possibly zero-quantity)
holding with the unchanged avg_cost. -/
theorem recordSell_updates (st : Store) (uid : Int) (sym : String) (q p : ℚ)
    (pf : Portfolio) (h0 : Holding)
    (hpf : PortfolioRepository.get_portfolio st uid = some pf)
    (hh : PortfolioRepository.get_holding_by_symbol st pf.id sym = some h0)
    (hq : q ≤ h0.quantity)
    (hn : (st.holdings.map Holding.id).Nodup) :
    PortfolioService.sell_holding st uid sym q p =
      ({ st with
          holdings := st.holdings.map (fun x =>
            if x.id = h0.id then
              { x with quantity := h0.quantity - q, avg_cost := h0.avg_cost }
            else x)
          transactions := st.transactions ++
            [⟨st.next_id, h0.id, TransactionType.SELL, q, p, st.next_id⟩]
          next_id := st.next_id + 1 },
        SellOutcome.sold
          { id := h0.id, portfolio_id := pf.id, symbol := pyUpper sym,
            quantity := h0.quantity - q, avg_cost := h0.avg_cost }) :=
  sell_accepted_eq st uid sym q p pf h0 hpf hh hq hn

/-- Store with one portfolio (user 7) and one active AAPL position of 10
shares at average cost 150. -/
def stOne : Store :=
  { portfolios := [⟨1, 7⟩]
    holdings := [⟨2, 1, "AAPL", 10, 150⟩]
    transactions := []
    next_id := 3 }

/-- Witness for claim C2: selling 4 of 10 AAPL shares at 180 leaves 6 shares
at the unchanged average cost 150 and appends one SELL entry of (4, 180). -/
theorem recordSell_updates_witness :
    PortfolioService.sell_holding stOne 7 "AAPL" 4 180 =
      ({ portfolios := [⟨1, 7⟩]
         holdings := [⟨2, 1, "AAPL", 6, 150⟩]
         transactions := [⟨3, 2, TransactionType.SELL, 4, 180, 3⟩]
         next_id := 4 },
       SellOutcome.sold ⟨2, 1, "AAPL", 6, 150⟩) := by
  have hA : pyUpper "AAPL" = "AAPL" := by decide
  have hpf : PortfolioRepository.get_portfolio stOne 7 = some ⟨1, 7⟩ := by
    norm_num [PortfolioRepository.get_portfolio, stOne, List.find?_cons]
  have hh : PortfolioRepository.get_holding_by_symbol stOne 1 "AAPL" =
      some ⟨2, 1, "AAPL", 10, 150⟩ := by
    norm_num [PortfolioRepository.get_holding_by_symbol, hA, stOne, List.find?_cons]
  rw [recordSell_updates stOne 7 "AAPL" 4 180 ⟨1, 7⟩ ⟨2, 1, "AAPL", 10, 150⟩ hpf hh
    (by norm_num) (by simp [stOne])]
  norm_num [stOne, hA]

/-- Claim C4: when a sell takes a position to exactly zero quantity, the
position row is retained (same row ids, the row kept with quantity pinned at
zero, never deleted), it is excluded from the active-holdings view - which
contains only rows with positive quantity, ordered by symbol - and every
ledger entry of the position remains retrievable through the joined
transaction history. -/
theorem position_zeroed_by_sell_retained (st : Store) (uid : Int) (sym : String)
    (p : ℚ) (pf : Portfolio) (h0 : Holding)
    (hpf : PortfolioRepository.get_portfolio st uid = some pf)
    (hh : PortfolioRepository.get_holding_by_symbol st pf.id sym = some h0)
    (hn : (st.holdings.map Holding.id).Nodup) :
    ((PortfolioService.sell_holding st uid sym h0.quantity p).1.holdings.map Holding.id
        = st.holdings.map Holding.id) ∧
    ({ h0 with quantity := (0 : ℚ) } ∈
        (PortfolioService.sell_holding st uid sym h0.quantity p).1.holdings) ∧
    (∀ x ∈ PortfolioRepository.get_holdings
        (PortfolioService.sell_holding st uid sym h0.quantity p).1 pf.id,
        0 < x.quantity ∧ x.id ≠ h0.id) ∧
    List.Sorted symLe (PortfolioRepository.get_holdings
        (PortfolioService.sell_holding st uid sym h0.quantity p).1 pf.id) ∧
    (∀ t ∈ (PortfolioService.sell_holding st uid sym h0.quantity p).1.transactions,
        t.holding_id = h0.id →
        (t, h0.symbol) ∈ PortfolioRepository.get_all_transactions
          (PortfolioService.sell_holding st uid sym h0.quantity p).1 pf.id
          (PortfolioService.sell_holding st uid sym h0.quantity p).1.transactions.length) := by
  have hfind : st.holdings.find?
      (fun h => decide (h.portfolio_id = pf.id ∧ h.symbol = pyUpper sym)) = some h0 := by
    simpa [PortfolioRepository.get_holding_by_symbol] using hh
  have hmem : h0 ∈ st.holdings := List.mem_of_find?_eq_some hfind
  have hpred : h0.portfolio_id = pf.id ∧ h0.symbol = pyUpper sym := by
    simpa using List.find?_some hfind
  rw [sell_accepted_eq st uid sym h0.quantity p pf h0 hpf hh le_rfl hn]
  simp only [sub_self]
  refine ⟨?_, ?_, ?_, ?_, ?_⟩
  · rw [List.map_map]
    refine List.map_congr_left ?_
    intro x _
    by_cases hid : x.id = h0.id <;> simp [Function.comp, hid]
  · exact List.mem_map.mpr ⟨h0, hmem, by simp⟩
  · intro x hx
    simp only [PortfolioRepository.get_holdings, List.mem_insertionSort] at hx
    obtain ⟨hxm, hxp⟩ := List.mem_filter.mp hx
    have hxq : 0 < x.quantity := (of_decide_eq_true hxp).2
    refine ⟨hxq, ?_⟩
    intro hxid
    obtain ⟨y, hy, hyx⟩ := List.mem_map.mp hxm
    have hyid : y.id = h0.id := by
      by_cases h : y.id = h0.id
      · exact h
      · rw [← hyx] at hxid; simp [h] at hxid
    have hye : y = h0 := eq_of_nodup_keys Holding.id hn hy hmem hyid
    subst hye
    rw [← hyx] at hxq
    simp [hyid] at hxq
  · exact List.sorted_insertionSort symLe _
  · intro t ht htid
    simp only [PortfolioRepository.get_all_transactions]
    have hjoin : ∀ u : Transaction, u.holding_id = h0.id →
        ((st.holdings.map (fun x =>
            if x.id = h0.id then { x with quantity := (0 : ℚ), avg_cost := h0.avg_cost }
            else x)).find? (fun h => decide (h.id = u.holding_id))) =
          some { h0 with quantity := (0 : ℚ), avg_cost := h0.avg_cost } := by
      intro u hu
      rw [hu]
      rw [find?_map_pred _ _ _ (by intro a _; by_cases hid : a.id = h0.id <;> simp [hid])]
      rw [find?_by_key_of_mem Holding.id hn hmem]
      simp
    have hmemJ : (t, h0.symbol) ∈
        (({ st with
            holdings := st.holdings.map (fun x =>
              if x.id = h0.id then { x with quantity := (0 : ℚ), avg_cost := h0.avg_cost }
              else x)
            transactions := st.transactions ++
              [⟨st.next_id, h0.id, TransactionType.SELL, h0.quantity, p, st.next_id⟩]
            next_id := st.next_id + 1 } : Store).transactions.filterMap (fun u =>
          match (st.holdings.map (fun x =>
              if x.id = h0.id then { x with quantity := (0 : ℚ), avg_cost := h0.avg_cost }
              else x)).find? (fun h => decide (h.id = u.holding_id)) with
          | some h => if h.portfolio_id = pf.id then some (u, h.symbol) else none
          | none => none)) := by
      refine List.mem_filterMap.mpr ⟨t, ht, ?_⟩
      rw [hjoin t htid]
      simp [hpred.1]
    set joined := (({ st with
        holdings := st.holdings.map (fun x =>
          if x.id = h0.id then { x with quantity := (0 : ℚ), avg_cost := h0.avg_cost }
          else x)
        transactions := st.transactions ++
          [⟨st.next_id, h0.id, TransactionType.SELL, h0.quantity, p, st.next_id⟩]
        next_id := st.next_id + 1 } : Store).transactions.filterMap (fun u =>
      match (st.holdings.map (fun x =>
          if x.id = h0.id then { x with quantity := (0 : ℚ), avg_cost := h0.avg_cost }
          else x)).find? (fun h => decide (h.id = u.holding_id)) with
      | some h => if h.portfolio_id = pf.id then some (u, h.symbol) else none
      | none => none)) with hjoined
    rw [List.take_of_length_le]
    · exact (List.mem_insertionSort tsDesc).mpr hmemJ
    · rw [List.length_insertionSort]
      exact le_trans (List.length_filterMap_le _ _) le_rfl

/-- Witness for claim C4: selling all 10 AAPL shares in the one-position
store retains the row at quantity zero, excludes it from the active view and
keeps its ledger entries retrievable. -/
theorem position_zeroed_by_sell_retained_witness :
    ((PortfolioService.sell_holding stOne 7 "AAPL" 10 180).1.holdings.map Holding.id
        = stOne.holdings.map Holding.id) ∧
    ((⟨2, 1, "AAPL", 0, 150⟩ : Holding) ∈
        (PortfolioService.sell_holding stOne 7 "AAPL" 10 180).1.holdings) ∧
    (∀ x ∈ PortfolioRepository.get_holdings
        (PortfolioService.sell_holding stOne 7 "AAPL" 10 180).1 1,
        0 < x.quantity ∧ x.id ≠ 2) ∧
    List.Sorted symLe (PortfolioRepository.get_holdings
        (PortfolioService.sell_holding stOne 7 "AAPL" 10 180).1 1) ∧
    (∀ t ∈ (PortfolioService.sell_holding stOne 7 "AAPL" 10 180).1.transactions,
        t.holding_id = 2 →
        (t, "AAPL") ∈ PortfolioRepository.get_all_transactions
          (PortfolioService.sell_holding stOne 7 "AAPL" 10 180).1 1
          (PortfolioService.sell_holding stOne 7 "AAPL" 10 180).1.transactions.length) := by
  have hA : pyUpper "AAPL" = "AAPL" := by decide
  have hpf : PortfolioRepository.get_portfolio stOne 7 = some ⟨1, 7⟩ := by
    norm_num [PortfolioRepository.get_portfolio, stOne, List.find?_cons]
  have hh : PortfolioRepository.get_holding_by_symbol stOne 1 "AAPL" =
      some ⟨2, 1, "AAPL", 10, 150⟩ := by
    norm_num [PortfolioRepository.get_holding_by_symbol, hA, stOne, List.find?_cons]
  exact position_zeroed_by_sell_retained stOne 7 "AAPL" 180 ⟨1, 7⟩
    ⟨2, 1, "AAPL", 10, 150⟩ hpf hh (by simp [stOne])

/-- Store with one portfolio for user 7 and nothing else. -/
def stEmpty : Store :=
  { portfolios := [⟨1, 7⟩]
    holdings := []
    transactions := []
    next_id := 2 }

/-- Claim C6 (counterexample): the service layer itself performs no
validation. A buy request with the non-positive quantity -5 reaches the store
through PortfolioService.add_holding: it writes a holding with quantity -5
and appends a BUY ledger entry instead of being rejected before any store
access. -/
theorem service_accepts_nonpositive_quantity :
    (PortfolioService.add_holding stEmpty 7 "AAPL" (-5) 100).2.quantity = -5 ∧
    (PortfolioService.add_holding stEmpty 7 "AAPL" (-5) 100).1.transactions =
      [⟨3, 2, TransactionType.BUY, -5, 100, 3⟩] ∧
    (PortfolioService.add_holding stEmpty 7 "AAPL" (-5) 100).1 ≠ stEmpty := by
  have hA : pyUpper "AAPL" = "AAPL" := by decide
  refine ⟨?_, ?_, ?_⟩ <;>
    norm_num [PortfolioService.add_holding, PortfolioRepository.get_or_create_portfolio,
      PortfolioRepository.get_portfolio, PortfolioRepository.add_holding,
      PortfolioRepository.get_holding_by_symbol, PortfolioRepository.record_transaction,
      hA, stEmpty, List.find?_cons, Store.mk.injEq]

/-- Claim C6 (amended): input validation lives in the command handlers, not
in the service. For every buy or sell request with a symbol failing
canonical-form validation, a non-positive quantity, or a non-positive price,
add_command and sell_command reject the request with the corresponding typed
validation outcome and return the store untouched - no position is read or
written and no ledger entry is appended. -/
theorem command_validation_rejects_before_store (st : Store) (uid : Int)
    (sym : String) (q p : ℚ) :
    (¬ pySymbolOk (pyUpper sym) →
      add_command st uid sym q p = (st, AddOutcome.invalidSymbol) ∧
      sell_command st uid sym q p = (st, SellCmdOutcome.invalidSymbol)) ∧
    (pySymbolOk (pyUpper sym) → q ≤ 0 →
      add_command st uid sym q p = (st, AddOutcome.invalidQuantity) ∧
      sell_command st uid sym q p = (st, SellCmdOutcome.invalidQuantity)) ∧
    (pySymbolOk (pyUpper sym) → 0 < q → p ≤ 0 →
      add_command st uid sym q p = (st, AddOutcome.invalidPrice) ∧
      sell_command st uid sym q p = (st, SellCmdOutcome.invalidPrice)) := by
  refine ⟨fun hs => ?_, fun hs hq => ?_, fun hs hq hp => ?_⟩
  · constructor <;> simp [add_command, sell_command, hs]
  · constructor <;> simp [add_command, sell_command, hs, hq]
  · constructor <;> simp [add_command, sell_command, hs, hq, not_le.mpr hq, hp]

/-- Witness for the amended claim C6: a digit-bearing symbol, a zero
quantity, and a negative price are each rejected with the store unchanged. -/
theorem command_validation_rejects_before_store_witness :
    (add_command stEmpty 7 "AA1" 5 100 = (stEmpty, AddOutcome.invalidSymbol) ∧
      sell_command stEmpty 7 "AA1" 5 100 = (stEmpty, SellCmdOutcome.invalidSymbol)) ∧
    (add_command stEmpty 7 "AAPL" 0 100 = (stEmpty, AddOutcome.invalidQuantity) ∧
      sell_command stEmpty 7 "AAPL" 0 100 = (stEmpty, SellCmdOutcome.invalidQuantity)) ∧
    (add_command stEmpty 7 "AAPL" 5 (-3) = (stEmpty, AddOutcome.invalidPrice) ∧
      sell_command stEmpty 7 "AAPL" 5 (-3) = (stEmpty, SellCmdOutcome.invalidPrice)) :=
  ⟨(command_validation_rejects_before_store stEmpty 7 "AA1" 5 100).1 (by decide),
   (command_validation_rejects_before_store stEmpty 7 "AAPL" 0 100).2.1 (by decide)
     (by norm_num),
   (command_validation_rejects_before_store stEmpty 7 "AAPL" 5 (-3)).2.2 (by decide)
     (by norm_num) (by norm_num)⟩

/-- The transaction history view honors the limit it is given. -/
theorem get_transactions_length_le (st : Store) (uid : Int) (limit : Nat) :
    (PortfolioService.get_transactions st uid limit).length ≤ limit := by
  unfold PortfolioService.get_transactions
  cases hpf : PortfolioRepository.get_portfolio st uid with
  | none => simp
  | some pf =>
    simp only [PortfolioRepository.get_all_transactions]
    exact List.length_take_le _ _

/-- The transaction history view is sorted most-recent-first. -/
theorem get_transactions_sorted (st : Store) (uid : Int) (limit : Nat) :
    List.Sorted tsDesc (PortfolioService.get_transactions st uid limit) := by
  unfold PortfolioService.get_transactions
  cases hpf : PortfolioRepository.get_portfolio st uid with
  | none => simp
  | some pf =>
    simp only [PortfolioRepository.get_all_transactions]
    exact (List.sorted_insertionSort tsDesc _).sublist (List.take_sublist _ _)

/-- Every row of the transaction history view is a stored transaction joined
with the symbol of its holding. -/
theorem get_transactions_joined (st : Store) (uid : Int) (limit : Nat) :
    ∀ r ∈ PortfolioService.get_transactions st uid limit,
      r.1 ∈ st.transactions ∧
      ∃ h ∈ st.holdings, h.id = r.1.holding_id ∧ r.2 = h.symbol := by
  intro r hr
  unfold PortfolioService.get_transactions at hr
  cases hpf : PortfolioRepository.get_portfolio st uid with
  | none => rw [hpf] at hr; simp at hr
  | some pf =>
    rw [hpf] at hr
    simp only [PortfolioRepository.get_all_transactions] at hr
    have hr2 := (List.mem_insertionSort tsDesc).mp ((List.take_sublist _ _).subset hr)
    obtain ⟨t, ht, hft⟩ := List.mem_filterMap.mp hr2
    cases hfind : st.holdings.find? (fun h => decide (h.id = t.holding_id)) with
    | none => rw [hfind] at hft; simp at hft
    | some h =>
      rw [hfind] at hft
      by_cases hpid : h.portfolio_id = pf.id
      · have hr3 : (t, h.symbol) = r := Option.some.inj (by simpa [hpid] using hft)
        subst hr3
        have hkey : h.id = t.holding_id := by simpa using List.find?_some hfind
        exact ⟨ht, h, List.mem_of_find?_eq_some hfind, hkey, rfl⟩
      · simp [hpid] at hft

theorem pairwise_sublist' {α : Type} {R : α → α → Prop} {l₁ l₂ : List α}
    (hs : l₁.Sublist l₂) (hp : l₂.Pairwise R) : l₁.Pairwise R :=
  hp.sublist hs

/-- Store with one portfolio, one holding and 51 ledger entries for it. -/
def stMany : Store :=
  { portfolios := [⟨1, 7⟩]
    holdings := [⟨1, 1, "AAPL", 100, 10⟩]
    transactions := (List.range 51).map
      (fun i => ⟨i + 2, 1, TransactionType.BUY, 1, 10, i + 2⟩)
    next_id := 53 }

/-- Claim C7 (counterexample): PortfolioService.get_transactions applies no
ceiling of its own. With 51 stored entries and a caller-supplied limit of 51,
it returns 51 rows, exceeding the configured ceiling MAX_LIMIT = 50. -/
theorem service_limit_uncapped :
    MAX_LIMIT = 50 ∧
    (PortfolioService.get_transactions stMany 7 51).length = 51 := by
  refine ⟨rfl, ?_⟩
  have hpf : PortfolioRepository.get_portfolio stMany 7 = some ⟨1, 7⟩ := by
    norm_num [PortfolioRepository.get_portfolio, stMany, List.find?_cons]
  have hmap : stMany.transactions.filterMap (fun t =>
      match stMany.holdings.find? (fun h => decide (h.id = t.holding_id)) with
      | some h => if h.portfolio_id = (1 : Nat) then some (t, h.symbol) else none
      | none => none) = stMany.transactions.map (fun t => (t, "AAPL")) := by
    refine filterMap_eq_map_of _ _ _ ?_
    intro t ht
    have hid : t.holding_id = 1 := by
      have ht' : t ∈ (List.range 51).map
          (fun i => (⟨i + 2, 1, TransactionType.BUY, 1, 10, i + 2⟩ : Transaction)) := ht
      obtain ⟨i, _, rfl⟩ := List.mem_map.mp ht'
      rfl
    simp [stMany, hid, List.find?_cons]
  simp only [PortfolioService.get_transactions, hpf,
    PortfolioRepository.get_all_transactions]
  rw [hmap, List.length_take, List.length_insertionSort, List.length_map]
  simp [stMany]

/-- Claim C7 (amended): the service returns joined rows most-recent-first
with at most the caller-supplied limit; the ceiling is enforced by the
/history command handler, which clamps the requested limit to MAX_LIMIT = 50
before invoking the service. -/
theorem transactions_view_order_limit_ceiling (st : Store) (uid : Int)
    (limit : Nat) (l : Int) :
    ((PortfolioService.get_transactions st uid limit).length ≤ limit) ∧
    List.Sorted tsDesc (PortfolioService.get_transactions st uid limit) ∧
    (∀ r ∈ PortfolioService.get_transactions st uid limit,
      r.1 ∈ st.transactions ∧
      ∃ h ∈ st.holdings, h.id = r.1.holding_id ∧ r.2 = h.symbol) ∧
    (0 < l →
      ∃ rows, history_command st uid (some l) = HistoryOutcome.entries rows ∧
        rows.length ≤ MAX_LIMIT ∧ rows.length ≤ l.toNat ∧
        List.Sorted tsDesc rows) := by
  refine ⟨get_transactions_length_le st uid limit,
    get_transactions_sorted st uid limit,
    get_transactions_joined st uid limit, fun hl => ?_⟩
  have hnle : ¬ (l ≤ 0) := not_le.mpr hl
  by_cases hbig : l > (MAX_LIMIT : Int)
  · refine ⟨PortfolioService.get_transactions st uid MAX_LIMIT, ?_, ?_, ?_, ?_⟩
    · simp [history_command, hnle, hbig]
    · exact get_transactions_length_le st uid MAX_LIMIT
    · refine le_trans (get_transactions_length_le st uid MAX_LIMIT) ?_
      simp only [MAX_LIMIT] at hbig ⊢
      omega
    · exact get_transactions_sorted st uid MAX_LIMIT
  · refine ⟨PortfolioService.get_transactions st uid l.toNat, ?_, ?_, ?_, ?_⟩
    · simp [history_command, hnle, hbig]
    · refine le_trans (get_transactions_length_le st uid l.toNat) ?_
      simp only [MAX_LIMIT] at hbig ⊢
      omega
    · exact get_transactions_length_le st uid l.toNat
    · exact get_transactions_sorted st uid l.toNat

/-- Witness for the amended claim C7 on the 51-entry store: a request of 60
entries through the handler is clamped to the 50-row ceiling. -/
theorem transactions_view_order_limit_ceiling_witness :
    ((PortfolioService.get_transactions stMany 7 5).length ≤ 5) ∧
    List.Sorted tsDesc (PortfolioService.get_transactions stMany 7 5) ∧
    (∀ r ∈ PortfolioService.get_transactions stMany 7 5,
      r.1 ∈ stMany.transactions ∧
      ∃ h ∈ stMany.holdings, h.id = r.1.holding_id ∧ r.2 = h.symbol) ∧
    (∃ rows, history_command stMany 7 (some 60) = HistoryOutcome.entries rows ∧
      rows.length ≤ MAX_LIMIT ∧ rows.length ≤ (60 : Int).toNat ∧
      List.Sorted tsDesc rows) := by
  obtain ⟨h1, h2, h3, h4⟩ := transactions_view_order_limit_ceiling stMany 7 5 60
  exact ⟨h1, h2, h3, h4 (by norm_num)⟩

/-- Number of provider attempts a fetch consumed. -/
def FetchResult.attemptsUsed : FetchResult α → Nat
  | FetchResult.ok _ n _ => n
  | FetchResult.raised _ n _ => n

/-- The sleeps a fetch performed, in order. -/
def FetchResult.sleepsDone : FetchResult α → List ℚ
  | FetchResult.ok _ _ s => s
  | FetchResult.raised _ _ s => s

/-- The retry loop consumes at most one attempt per unit of fuel plus the
current attempt, and sleeps at most once per unit of fuel. -/
theorem fetch_loop_bound {α : Type} (attempts : Nat → AttemptOutcome α)
    (jitter : Nat → ℚ) : ∀ fuel attempt s,
    (fetch_loop attempts jitter fuel attempt s).attemptsUsed ≤ attempt + fuel + 1 ∧
    (fetch_loop attempts jitter fuel attempt s).sleepsDone.length ≤ s.length + fuel := by
  intro fuel
  induction fuel with
  | zero =>
    intro attempt s
    cases h : attempts attempt <;>
      simp [fetch_loop, h, FetchResult.attemptsUsed, FetchResult.sleepsDone]
  | succ fuel ih =>
    intro attempt s
    cases h : attempts attempt with
    | ok v =>
      simp only [fetch_loop, h, FetchResult.attemptsUsed, FetchResult.sleepsDone]
      omega
    | error rl =>
      cases rl with
      | false =>
        simp only [fetch_loop, h, Bool.false_eq_true, if_false,
          FetchResult.attemptsUsed, FetchResult.sleepsDone]
        omega
      | true =>
        simp only [fetch_loop, h, if_true]
        have := ih (attempt + 1) (s ++ [backoffDelay jitter attempt])
        rw [List.length_append] at this
        constructor
        · exact le_trans this.1 (by omega)
        · exact le_trans this.2 (by simp; omega)

/-- Claim C8: the quote fetch makes at most MAX_RETRIES = 3 attempts. A
non-rate-limit error on the first attempt propagates immediately with no
sleep; a rate-limit error on a non-final attempt sleeps
`BASE_DELAY * 2 ^ attempt + jitter attempt` and retries; rate limits on
attempts 1 and 2 followed by success on attempt 3 return the successful
payload after the two increasing backoff sleeps; a rate limit on the final
attempt propagates with no further sleep. -/
theorem fetchQuote_retry_policy {α : Type} (attempts : Nat → AttemptOutcome α)
    (jitter : Nat → ℚ) :
    ((fetch_ticker_info attempts jitter).attemptsUsed ≤ MAX_RETRIES ∧
      (fetch_ticker_info attempts jitter).sleepsDone.length ≤ MAX_RETRIES - 1) ∧
    (attempts 0 = AttemptOutcome.error false →
      fetch_ticker_info attempts jitter = FetchResult.raised false 1 []) ∧
    (attempts 0 = AttemptOutcome.error true →
      fetch_ticker_info attempts jitter =
        fetch_loop attempts jitter (MAX_RETRIES - 2) 1 [backoffDelay jitter 0]) ∧
    (∀ v, attempts 0 = AttemptOutcome.error true →
      attempts 1 = AttemptOutcome.error true →
      attempts 2 = AttemptOutcome.ok v →
      fetch_ticker_info attempts jitter =
        FetchResult.ok v 3 [backoffDelay jitter 0, backoffDelay jitter 1]) ∧
    ((∀ i, 0 ≤ jitter i ∧ jitter i ≤ 1) →
      backoffDelay jitter 0 < backoffDelay jitter 1) ∧
    (attempts 0 = AttemptOutcome.error true →
      attempts 1 = AttemptOutcome.error true →
      attempts 2 = AttemptOutcome.error true →
      fetch_ticker_info attempts jitter =
        FetchResult.raised true 3 [backoffDelay jitter 0, backoffDelay jitter 1]) := by
  refine ⟨?_, fun h0 => ?_, fun h0 => ?_, fun v h0 h1 h2 => ?_, fun hj => ?_,
    fun h0 h1 h2 => ?_⟩
  · have := fetch_loop_bound attempts jitter (MAX_RETRIES - 1) 0 []
    simpa [fetch_ticker_info, MAX_RETRIES] using this
  · simp [fetch_ticker_info, fetch_loop, MAX_RETRIES, h0]
  · simp [fetch_ticker_info, fetch_loop, MAX_RETRIES, h0]
  · simp [fetch_ticker_info, fetch_loop, MAX_RETRIES, h0, h1, h2]
  · have hj0 := (hj 0).2
    have hj1 := (hj 1).1
    simp only [backoffDelay, BASE_DELAY]
    norm_num
    linarith
  · simp [fetch_ticker_info, fetch_loop, MAX_RETRIES, h0, h1, h2]

/-- Concrete attempt oracle: rate-limited on the first two attempts, then a
successful payload. -/
def attemptsRL2 : Nat → AttemptOutcome Nat :=
  fun n => if n < 2 then AttemptOutcome.error true else AttemptOutcome.ok 42

/-- Concrete attempt oracle: a non-rate-limit failure on every attempt. -/
def attemptsFail : Nat → AttemptOutcome Nat := fun _ => AttemptOutcome.error false

/-- Concrete attempt oracle: rate-limited on every attempt. -/
def attemptsRLAll : Nat → AttemptOutcome Nat := fun _ => AttemptOutcome.error true

/-- Jitter fixed at zero. -/
def jitterZero : Nat → ℚ := fun _ => 0

/-- Jitter fixed at one half. -/
def jitterHalf : Nat → ℚ := fun _ => 1 / 2

/-- Witness for claim C8: the three concrete attempt oracles exercise the
success-after-two-rate-limits path, the immediate-propagation path and the
exhausted path, with the expected sleeps. -/
theorem fetchQuote_retry_policy_witness :
    fetch_ticker_info attemptsRL2 jitterZero = FetchResult.ok 42 3 [2, 4] ∧
    fetch_ticker_info attemptsFail jitterZero = FetchResult.raised false 1 [] ∧
    fetch_ticker_info attemptsRLAll jitterZero = FetchResult.raised true 3 [2, 4] ∧
    backoffDelay jitterHalf 0 < backoffDelay jitterHalf 1 ∧
    (fetch_ticker_info attemptsRL2 jitterZero).attemptsUsed ≤ MAX_RETRIES := by
  refine ⟨?_, ?_, ?_, ?_, ?_⟩
  · rw [(fetchQuote_retry_policy attemptsRL2 jitterZero).2.2.2.1 42 rfl rfl rfl]
    norm_num [backoffDelay, BASE_DELAY, jitterZero]
  · exact (fetchQuote_retry_policy attemptsFail jitterZero).2.1 rfl
  · rw [(fetchQuote_retry_policy attemptsRLAll jitterZero).2.2.2.2.2 rfl rfl rfl]
    norm_num [backoffDelay, BASE_DELAY, jitterZero]
  · exact (fetchQuote_retry_policy attemptsRLAll jitterHalf).2.2.2.2.1
      (fun i => by norm_num [jitterHalf])
  · exact (fetchQuote_retry_policy attemptsRL2 jitterZero).1.1

/-- Provider payload whose dividendYield field carries the upstream fraction
0.0041. -/
def infoYieldFrac : RawInfo := ⟨true, none, none, none, none, some (41 / 10000)⟩

/-- Claim C9 (counterexample): the 0.15 dividend-yield policy is not part of
the Quote Client. get_info returns the upstream value 0.0041 unmodified; the
multiplication by 100 that renders it as 0.41 percent happens only in the
presentation renderer. -/
theorem quote_client_returns_raw_dividend_yield :
    get_info "T" (some infoYieldFrac) = InfoResult.ok ⟨"T", some (41 / 10000)⟩ ∧
    renderedDividendYield (some (41 / 10000)) = some (41 / 100) ∧
    ((41 : ℚ) / 10000) ≠ 41 / 100 := by
  have hT : pyUpper "T" = "T" := by decide
  refine ⟨?_, ?_, by norm_num⟩
  · simp [get_info, infoYieldFrac, hT]
  · norm_num [renderedDividendYield]

/-- Claim C9 (amended): the dividend-yield threshold policy is implemented in
the presentation renderer format_analysis_message, not in the Quote Client.
The renderer multiplies values strictly below 0.15 by 100 and leaves values
at or above 0.15 unchanged (0.0041 renders as 0.41 percent, 5.2 as 5.2
percent; a falsy value renders as N/A), while get_info passes the upstream
dividendYield through unmodified. -/
theorem dividend_yield_policy_in_renderer (v : ℚ) (sym : String) (info : RawInfo) :
    (renderedDividendYield (some (41 / 10000)) = some (41 / 100)) ∧
    (renderedDividendYield (some (52 / 10)) = some (52 / 10)) ∧
    (v ≠ 0 → v < 15 / 100 → renderedDividendYield (some v) = some (v * 100)) ∧
    (15 / 100 ≤ v → renderedDividendYield (some v) = some v) ∧
    (renderedDividendYield none = none ∧ renderedDividendYield (some 0) = none) ∧
    (info.hasSymbol = true →
      get_info sym (some info) = InfoResult.ok ⟨pyUpper sym, info.dividendYield⟩) := by
  refine ⟨by norm_num [renderedDividendYield], by norm_num [renderedDividendYield],
    fun hne hlt => ?_, fun hge => ?_, ⟨rfl, by norm_num [renderedDividendYield]⟩,
    fun hs => ?_⟩
  · simp [renderedDividendYield, hne, hlt]
  · have hne : v ≠ 0 := by intro h; rw [h] at hge; norm_num at hge
    simp [renderedDividendYield, hne, not_lt.mpr hge]
  · simp [get_info, hs]

/-- Witness for the amended claim C9: a fraction below the threshold, a
percentage above it, and the pass-through of the client on the 0.0041
payload. -/
theorem dividend_yield_policy_in_renderer_witness :
    renderedDividendYield (some (3 / 100)) = some 3 ∧
    renderedDividendYield (some (52 / 10)) = some (52 / 10) ∧
    get_info "MSFT" (some infoYieldFrac) =
      InfoResult.ok ⟨"MSFT", some (41 / 10000)⟩ := by
  have hU : pyUpper "MSFT" = "MSFT" := by decide
  refine ⟨?_, ?_, ?_⟩
  · have := (dividend_yield_policy_in_renderer (3 / 100) "MSFT" infoYieldFrac).2.2.1
      (by norm_num) (by norm_num)
    rw [this]
    norm_num
  · exact (dividend_yield_policy_in_renderer (52 / 10) "MSFT" infoYieldFrac).2.2.2.1
      (by norm_num)
  · have := (dividend_yield_policy_in_renderer (3 / 100) "MSFT" infoYieldFrac).2.2.2.2.2
      rfl
    rw [this, hU]
    rfl

/-- Claim C10: with the identifying symbol field present, get_price raises
DataFetchError whenever the resolved current price (currentPrice falling back
to regularMarketPrice under the Python falsy `or`) is absent or equal to
zero; it therefore never returns a StockPrice with price 0; and a previous
close that resolves to absent or zero yields change and change percent of
exactly zero rather than a division by zero. -/
theorem get_price_zero_price_handling (sym : String) (info : RawInfo) :
    (info.hasSymbol = true →
      pyOr info.currentPrice info.regularMarketPrice = none →
      get_price sym (some info) = PriceResult.dataFetchError) ∧
    (info.hasSymbol = true →
      pyOr info.currentPrice info.regularMarketPrice = some 0 →
      get_price sym (some info) = PriceResult.dataFetchError) ∧
    (∀ fetched pr, get_price sym fetched = PriceResult.ok pr → pr.price ≠ 0) ∧
    (∀ pr, get_price sym (some info) = PriceResult.ok pr →
      (pyOr info.previousClose info.regularMarketPreviousClose = none ∨
        pyOr info.previousClose info.regularMarketPreviousClose = some 0) →
      pr.change = 0 ∧ pr.change_percent = 0) := by
  refine ⟨fun hs hcp => ?_, fun hs hcp => ?_, fun fetched pr h => ?_,
    fun pr h hpc => ?_⟩
  · simp [get_price, hs, hcp]
  · simp [get_price, hs, hcp]
  · cases fetched with
    | none => simp [get_price] at h
    | some i =>
      by_cases hsym : i.hasSymbol
      · cases hcp : pyOr i.currentPrice i.regularMarketPrice with
        | none => simp [get_price, hsym, hcp] at h
        | some cp =>
          by_cases hc0 : cp = 0
          · simp [get_price, hsym, hcp, hc0] at h
          · simp only [get_price, hsym, not_true, if_false, hcp, hc0, if_neg hc0] at h
            have hpr := PriceResult.ok.inj h
            rw [← hpr]
            exact hc0
      · simp [get_price, hsym] at h
  · by_cases hsym : info.hasSymbol
    · cases hcp : pyOr info.currentPrice info.regularMarketPrice with
      | none => simp [get_price, hsym, hcp] at h
      | some cp =>
        by_cases hc0 : cp = 0
        · simp [get_price, hsym, hcp, hc0] at h
        · rcases hpc with hpc | hpc <;>
          · simp only [get_price, hsym, not_true, if_false, hcp, hc0, if_neg hc0,
              hpc] at h
            have hpr := PriceResult.ok.inj h
            rw [← hpr]
            constructor <;> simp
    · simp [get_price, hsym] at h

/-- Payload where the current price is present but zero and no fallback
exists. -/
def infoZeroPrice : RawInfo := ⟨true, some 0, none, some 100, none, none⟩

/-- Payload where the fallback regular market price is present but zero. -/
def infoNoPrice : RawInfo := ⟨true, none, some 0, some 100, none, none⟩

/-- Payload with a valid price and a present-but-zero previous close. -/
def infoZeroPC : RawInfo := ⟨true, some 50, none, some 0, none, none⟩

/-- Witness for claim C10: a zero current price and a zero fallback price
both raise DataFetchError, while a zero previous close yields a quote with
price 50 and change and change percent equal to zero. -/
theorem get_price_zero_price_handling_witness :
    get_price "AAPL" (some infoZeroPrice) = PriceResult.dataFetchError ∧
    get_price "AAPL" (some infoNoPrice) = PriceResult.dataFetchError ∧
    ((⟨pyUpper "AAPL", 50, 0, 0⟩ : StockPrice).price ≠ 0 ∧
      (⟨pyUpper "AAPL", 50, 0, 0⟩ : StockPrice).change = 0 ∧
      (⟨pyUpper "AAPL", 50, 0, 0⟩ : StockPrice).change_percent = 0) := by
  have hok : get_price "AAPL" (some infoZeroPC) =
      PriceResult.ok ⟨pyUpper "AAPL", 50, 0, 0⟩ := by
    norm_num [get_price, infoZeroPC, pyOr]
  refine ⟨?_, ?_, ?_, ?_⟩
  · exact (get_price_zero_price_handling "AAPL" infoZeroPrice).1 rfl
      (by norm_num [infoZeroPrice, pyOr])
  · exact (get_price_zero_price_handling "AAPL" infoNoPrice).2.1 rfl
      (by norm_num [infoNoPrice, pyOr])
  · exact (get_price_zero_price_handling "AAPL" infoZeroPC).2.2.1
      (some infoZeroPC) ⟨pyUpper "AAPL", 50, 0, 0⟩ hok
  · exact (get_price_zero_price_handling "AAPL" infoZeroPC).2.2.2
      ⟨pyUpper "AAPL", 50, 0, 0⟩ hok (Or.inl (by norm_num [infoZeroPC, pyOr]))

set_option maxHeartbeats 1600000 in
/-- Claim C5 (counterexample): the ledger does not combine cost and price as
exact decimal values. The service converts the Decimal inputs with
`float(...)` and the repository adds them as binary doubles, so recording
buys of quantity 0.1 and 0.2 stores the binary64 value
0.30000000000000004440892098500626... rather than the exact decimal 0.3 that
the exact-arithmetic kernel produces. -/
theorem ledger_arithmetic_is_binary_float :
    (applyBuyFloat (some (applyBuyFloat none (roundB64 (1 / 10), roundB64 150)))
        (roundB64 (2 / 10), roundB64 150)).1 ≠ 3 / 10 ∧
    (applyBuyFloat (some (applyBuyFloat none (roundB64 (1 / 10), roundB64 150)))
        (roundB64 (2 / 10), roundB64 150)).1 =
      1351079888211149 / 4503599627370496 ∧
    (applyBuy (some (applyBuy none (1 / 10, 150))) (2 / 10, 150)).1 = 3 / 10 := by
  have h1 : roundB64 (1 / 10) = 3602879701896397 / 36028797018963968 := by
    norm_num [roundB64, norm2.eq_1, norm2.eq_2, roundTE, qpow2]
  have h2 : roundB64 (2 / 10) = 3602879701896397 / 18014398509481984 := by
    norm_num [roundB64, norm2.eq_1, norm2.eq_2, roundTE, qpow2]
  have hsum : (3602879701896397 : ℚ) / 36028797018963968 +
      3602879701896397 / 18014398509481984 = 10808639105689191 / 36028797018963968 := by
    norm_num
  have h3 : roundB64 ((10808639105689191 : ℚ) / 36028797018963968) =
      1351079888211149 / 4503599627370496 := by
    norm_num [roundB64, norm2.eq_1, norm2.eq_2, roundTE, qpow2]
  have hq : (applyBuyFloat (some (applyBuyFloat none (roundB64 (1 / 10), roundB64 150)))
      (roundB64 (2 / 10), roundB64 150)).1 = 1351079888211149 / 4503599627370496 := by
    simp only [applyBuyFloat, fadd, h1, h2]
    rw [hsum]
    exact h3
  refine ⟨?_, hq, by norm_num [applyBuy]⟩
  rw [hq]
  norm_num

set_option maxHeartbeats 1600000 in
/-- Claim C5 (amended): ledger arithmetic is binary64 floating point, not
decimal. It is exact whenever inputs and intermediate results are
representable dyadics - buying 0.25 at 100 and then 0.25 at 200 yields
exactly quantity 0.5 and average cost 150, so fractional quantities are
supported - but a decimal input such as 0.1 is already not representable. -/
theorem ledger_float_semantics :
    roundB64 (1 / 10) ≠ 1 / 10 ∧
    applyBuyFloat (some (applyBuyFloat none (roundB64 (1 / 4), roundB64 100)))
        (roundB64 (1 / 4), roundB64 200) = (1 / 2, 150) := by
  have h1 : roundB64 (1 / 10) = 3602879701896397 / 36028797018963968 := by
    norm_num [roundB64, norm2.eq_1, norm2.eq_2, roundTE, qpow2]
  have hq4 : roundB64 (1 / 4) = 1 / 4 := by
    norm_num [roundB64, norm2.eq_1, norm2.eq_2, roundTE, qpow2]
  have hc100 : roundB64 100 = 100 := by
    norm_num [roundB64, norm2.eq_1, norm2.eq_2, roundTE, qpow2]
  have hc200 : roundB64 200 = 200 := by
    norm_num [roundB64, norm2.eq_1, norm2.eq_2, roundTE, qpow2]
  have hq2 : roundB64 ((1 : ℚ) / 4 + 1 / 4) = 1 / 2 := by
    norm_num [roundB64, norm2.eq_1, norm2.eq_2, roundTE, qpow2]
  have hm25 : roundB64 ((1 : ℚ) / 4 * 100) = 25 := by
    norm_num [roundB64, norm2.eq_1, norm2.eq_2, roundTE, qpow2]
  have hm50 : roundB64 ((1 : ℚ) / 4 * 200) = 50 := by
    norm_num [roundB64, norm2.eq_1, norm2.eq_2, roundTE, qpow2]
  have ha75 : roundB64 ((25 : ℚ) + 50) = 75 := by
    norm_num [roundB64, norm2.eq_1, norm2.eq_2, roundTE, qpow2]
  have hd150 : roundB64 ((75 : ℚ) / (1 / 2)) = 150 := by
    norm_num [roundB64, norm2.eq_1, norm2.eq_2, roundTE, qpow2]
  constructor
  · rw [h1]; norm_num
  · simp only [applyBuyFloat, fadd, fmul, fdiv, hq4, hc100, hc200, hq2, hm25,
      hm50, ha75, hd150]

/-- The exact buy kernel folded over a list of (quantity, price) buys from a
live position state. -/
def applyBuyFoldl (qc : ℚ × ℚ) (buys : List (ℚ × ℚ)) : ℚ × ℚ :=
  buys.foldl (fun a b => applyBuy (some a) b) qc

/-- Characterization of a service-level buy that merges into an existing
position. -/
theorem add_existing_eq (st : Store) (uid : Int) (sym : String) (q p : ℚ)
    (pf : Portfolio) (h0 : Holding)
    (hs : pyUpper sym = sym)
    (hpf : PortfolioRepository.get_portfolio st uid = some pf)
    (hh : PortfolioRepository.get_holding_by_symbol st pf.id sym = some h0) :
    PortfolioService.add_holding st uid sym q p =
      ({ st with
          holdings := st.holdings.map (fun x =>
            if x.id = h0.id then
              { h0 with
                quantity := h0.quantity + q
                avg_cost := (h0.total_cost + q * p) / (h0.quantity + q) }
            else x)
          transactions := st.transactions ++
            [⟨st.next_id, h0.id, TransactionType.BUY, q, p, st.next_id⟩]
          next_id := st.next_id + 1 },
        { h0 with
          quantity := h0.quantity + q
          avg_cost := (h0.total_cost + q * p) / (h0.quantity + q) }) := by
  simp only [PortfolioService.add_holding, PortfolioRepository.get_or_create_portfolio,
    hpf, PortfolioRepository.add_holding, hs, hh,
    PortfolioRepository.record_transaction]

/-- Characterization of a service-level buy that creates the first position
row for the symbol. -/
theorem add_fresh_eq (st : Store) (uid : Int) (sym : String) (q p : ℚ)
    (pf : Portfolio)
    (hs : pyUpper sym = sym)
    (hpf : PortfolioRepository.get_portfolio st uid = some pf)
    (hh : PortfolioRepository.get_holding_by_symbol st pf.id sym = none) :
    PortfolioService.add_holding st uid sym q p =
      ({ st with
          holdings := st.holdings ++ [⟨st.next_id, pf.id, sym, q, p⟩]
          transactions := st.transactions ++
            [⟨st.next_id + 1, st.next_id, TransactionType.BUY, q, p, st.next_id + 1⟩]
          next_id := st.next_id + 2 },
        ⟨st.next_id, pf.id, sym, q, p⟩) := by
  simp only [PortfolioService.add_holding, PortfolioRepository.get_or_create_portfolio,
    hpf, PortfolioRepository.add_holding, hs, hh,
    PortfolioRepository.record_transaction]

/-- After a merging buy, the portfolio still resolves, holding ids are
unchanged (so still nodup), and the symbol lookup returns the updated
position. -/
theorem add_existing_state (st : Store) (uid : Int) (sym : String) (q p : ℚ)
    (pf : Portfolio) (h0 : Holding)
    (hs : pyUpper sym = sym)
    (hpf : PortfolioRepository.get_portfolio st uid = some pf)
    (hh : PortfolioRepository.get_holding_by_symbol st pf.id sym = some h0)
    (hn : (st.holdings.map Holding.id).Nodup) :
    PortfolioRepository.get_portfolio
        (PortfolioService.add_holding st uid sym q p).1 uid = some pf ∧
    (((PortfolioService.add_holding st uid sym q p).1.holdings.map Holding.id).Nodup) ∧
    PortfolioRepository.get_holding_by_symbol
        (PortfolioService.add_holding st uid sym q p).1 pf.id sym =
      some { h0 with
        quantity := h0.quantity + q
        avg_cost := (h0.total_cost + q * p) / (h0.quantity + q) } := by
  have hfind : st.holdings.find?
      (fun h => decide (h.portfolio_id = pf.id ∧ h.symbol = pyUpper sym)) = some h0 := by
    simpa [PortfolioRepository.get_holding_by_symbol] using hh
  have hmem : h0 ∈ st.holdings := List.mem_of_find?_eq_some hfind
  have hpred : h0.portfolio_id = pf.id ∧ h0.symbol = pyUpper sym := by
    simpa using List.find?_some hfind
  rw [add_existing_eq st uid sym q p pf h0 hs hpf hh]
  refine ⟨hpf, ?_, ?_⟩
  · have hmapid : ((st.holdings.map (fun x =>
        if x.id = h0.id then
          { h0 with
            quantity := h0.quantity + q
            avg_cost := (h0.total_cost + q * p) / (h0.quantity + q) }
        else x)).map Holding.id) = st.holdings.map Holding.id := by
      rw [List.map_map]
      refine List.map_congr_left ?_
      intro x _
      by_cases hid : x.id = h0.id <;> simp [Function.comp, hid]
    simpa [hmapid] using hn
  · simp only [PortfolioRepository.get_holding_by_symbol]
    rw [find?_map_pred _ _ _ ?_]
    · rw [hfind]
      simp
    · intro a ha
      by_cases haid : a.id = h0.id
      · have hae : a = h0 := eq_of_nodup_keys Holding.id hn ha hmem haid
        subst hae
        simp
      · simp [haid]

/-- After a first buy of a symbol, the portfolio still resolves, the id list
gains only the fresh id, and the symbol lookup returns the new position. -/
theorem add_fresh_state (st : Store) (uid : Int) (sym : String) (q p : ℚ)
    (pf : Portfolio)
    (hs : pyUpper sym = sym)
    (hpf : PortfolioRepository.get_portfolio st uid = some pf)
    (hh : PortfolioRepository.get_holding_by_symbol st pf.id sym = none)
    (hn : (st.holdings.map Holding.id).Nodup)
    (hfresh : st.next_id ∉ st.holdings.map Holding.id) :
    PortfolioRepository.get_portfolio
        (PortfolioService.add_holding st uid sym q p).1 uid = some pf ∧
    (((PortfolioService.add_holding st uid sym q p).1.holdings.map Holding.id).Nodup) ∧
    PortfolioRepository.get_holding_by_symbol
        (PortfolioService.add_holding st uid sym q p).1 pf.id sym =
      some ⟨st.next_id, pf.id, sym, q, p⟩ := by
  have hfind : st.holdings.find?
      (fun h => decide (h.portfolio_id = pf.id ∧ h.symbol = pyUpper sym)) = none := by
    simpa [PortfolioRepository.get_holding_by_symbol] using hh
  rw [add_fresh_eq st uid sym q p pf hs hpf hh]
  refine ⟨hpf, ?_, ?_⟩
  · simp only [List.map_append, List.map_cons, List.map_nil]
    rw [List.nodup_append]
    exact ⟨hn, List.nodup_singleton _, by simpa using hfresh⟩
  · simp only [PortfolioRepository.get_holding_by_symbol]
    rw [List.find?_append, hfind]
    simp [hs]

/-- Running a list of service-level buys over a store keeps the portfolio
resolvable and the holding ids nodup, and drives the tracked position through
the exact buy kernel. -/
theorem buyFold_run (uid : Int) (sym : String) (pf : Portfolio) (hid : Nat)
    (hs : pyUpper sym = sym) :
    ∀ (buys : List (ℚ × ℚ)) (st : Store) (Q C : ℚ),
    PortfolioRepository.get_portfolio st uid = some pf →
    PortfolioRepository.get_holding_by_symbol st pf.id sym =
      some ⟨hid, pf.id, sym, Q, C⟩ →
    (st.holdings.map Holding.id).Nodup →
    PortfolioRepository.get_portfolio (buyFold uid sym st buys) uid = some pf ∧
    ((buyFold uid sym st buys).holdings.map Holding.id).Nodup ∧
    PortfolioRepository.get_holding_by_symbol (buyFold uid sym st buys) pf.id sym =
      some ⟨hid, pf.id, sym, (applyBuyFoldl (Q, C) buys).1,
        (applyBuyFoldl (Q, C) buys).2⟩ := by
  intro buys
  induction buys with
  | nil =>
    intro st Q C hpf hh hn
    exact ⟨hpf, hn, by simpa [buyFold, applyBuyFoldl] using hh⟩
  | cons b rest ih =>
    obtain ⟨q, p⟩ := b
    intro st Q C hpf hh hn
    obtain ⟨hpf1, hn1, hh1⟩ :=
      add_existing_state st uid sym q p pf ⟨hid, pf.id, sym, Q, C⟩ hs hpf hh hn
    have hh1' : PortfolioRepository.get_holding_by_symbol
        (PortfolioService.add_holding st uid sym q p).1 pf.id sym =
        some ⟨hid, pf.id, sym, Q + q, (Q * C + q * p) / (Q + q)⟩ := by
      simpa [Holding.total_cost] using hh1
    have hrest := ih (PortfolioService.add_holding st uid sym q p).1 (Q + q)
      ((Q * C + q * p) / (Q + q)) hpf1 hh1' hn1
    simpa [buyFold, applyBuyFoldl, applyBuy] using hrest

/-- Folding the exact buy kernel from a live state (Q, S / Q) accumulates the
quantity sum and the cost sum. -/
theorem applyBuyFoldl_sum :
    ∀ (buys : List (ℚ × ℚ)) (Q S : ℚ), 0 < Q → (∀ x ∈ buys, 0 < x.1) →
    applyBuyFoldl (Q, S / Q) buys =
      (Q + (buys.map Prod.fst).sum,
        (S + (buys.map (fun x => x.1 * x.2)).sum) / (Q + (buys.map Prod.fst).sum)) := by
  intro buys
  induction buys with
  | nil =>
    intro Q S hQ _
    simp [applyBuyFoldl]
  | cons b rest ih =>
    obtain ⟨q, p⟩ := b
    intro Q S hQ hpos
    have hq : 0 < q := hpos (q, p) (List.mem_cons_self _ _)
    have hQq : 0 < Q + q := by linarith
    have hnum : Q * (S / Q) + q * p = S + q * p := by
      field_simp
    have hstep : applyBuy (some (Q, S / Q)) (q, p) = (Q + q, (S + q * p) / (Q + q)) := by
      simp only [applyBuy, hnum]
    have hrest := ih (Q + q) (S + q * p) hQq
      (fun x hx => hpos x (List.mem_cons_of_mem _ hx))
    simp only [applyBuyFoldl, List.foldl_cons] at hrest ⊢
    rw [hstep, hrest]
    simp [add_assoc]

/-- Claim C1: a buy on an existing position with quantity q0 and average
cost c0 updates it to quantity q0 + q and average cost
(q0 * c0 + q * p) / (q0 + q), while a first buy of a symbol creates the
position with quantity q and average cost p; in both cases exactly one BUY
ledger entry carrying the incoming quantity and price is appended.
Consequently any non-empty sequence of buys on a fresh (account, symbol)
leaves the quantity at the sum of bought quantities and the average cost at
the quantity-weighted average of the buy prices. -/
theorem recordBuy_weighted_average (st : Store) (uid : Int) (sym : String)
    (q p : ℚ) (pf : Portfolio)
    (hs : pyUpper sym = sym)
    (hpf : PortfolioRepository.get_portfolio st uid = some pf) :
    (∀ h0, PortfolioRepository.get_holding_by_symbol st pf.id sym = some h0 →
      PortfolioService.add_holding st uid sym q p =
        ({ st with
            holdings := st.holdings.map (fun x =>
              if x.id = h0.id then
                { h0 with
                  quantity := h0.quantity + q
                  avg_cost := (h0.quantity * h0.avg_cost + q * p) / (h0.quantity + q) }
              else x)
            transactions := st.transactions ++
              [⟨st.next_id, h0.id, TransactionType.BUY, q, p, st.next_id⟩]
            next_id := st.next_id + 1 },
          { h0 with
            quantity := h0.quantity + q
            avg_cost := (h0.quantity * h0.avg_cost + q * p) / (h0.quantity + q) })) ∧
    (PortfolioRepository.get_holding_by_symbol st pf.id sym = none →
      PortfolioService.add_holding st uid sym q p =
        ({ st with
            holdings := st.holdings ++ [⟨st.next_id, pf.id, sym, q, p⟩]
            transactions := st.transactions ++
              [⟨st.next_id + 1, st.next_id, TransactionType.BUY, q, p, st.next_id + 1⟩]
            next_id := st.next_id + 2 },
          ⟨st.next_id, pf.id, sym, q, p⟩)) ∧
    (∀ buys : List (ℚ × ℚ), buys ≠ [] → (∀ x ∈ buys, 0 < x.1) →
      PortfolioRepository.get_holding_by_symbol st pf.id sym = none →
      (st.holdings.map Holding.id).Nodup →
      st.next_id ∉ st.holdings.map Holding.id →
      PortfolioRepository.get_holding_by_symbol (buyFold uid sym st buys) pf.id sym =
        some ⟨st.next_id, pf.id, sym, (buys.map Prod.fst).sum,
          (buys.map (fun x => x.1 * x.2)).sum / (buys.map Prod.fst).sum⟩) := by
  refine ⟨fun h0 hh => ?_, fun hh => add_fresh_eq st uid sym q p pf hs hpf hh,
    fun buys hne hpos hh hn hfresh => ?_⟩
  · rw [add_existing_eq st uid sym q p pf h0 hs hpf hh]
    rfl
  · obtain ⟨b, rest, rfl⟩ := List.exists_cons_of_ne_nil hne
    obtain ⟨q1, p1⟩ := b
    have hq1 : 0 < q1 := hpos (q1, p1) (List.mem_cons_self _ _)
    obtain ⟨hpf1, hn1, hh1⟩ := add_fresh_state st uid sym q1 p1 pf hs hpf hh hn hfresh
    have hrun := buyFold_run uid sym pf st.next_id hs rest
      (PortfolioService.add_holding st uid sym q1 p1).1 q1 p1 hpf1 hh1 hn1
    have hfold : buyFold uid sym st ((q1, p1) :: rest) =
        buyFold uid sym (PortfolioService.add_holding st uid sym q1 p1).1 rest := by
      simp [buyFold]
    rw [hfold, hrun.2.2]
    have hp1 : p1 = q1 * p1 / q1 := by field_simp
    have halg := applyBuyFoldl_sum rest q1 (q1 * p1) hq1
      (fun x hx => hpos x (List.mem_cons_of_mem _ hx))
    rw [← hp1] at halg
    rw [halg]
    simp [add_assoc]

/-- Witness for claim C1: on the one-position store, a second AAPL buy of
10 at 250 yields quantity 20 at average cost 200 with one BUY entry; a first
MSFT buy of 5 at 100 creates the position at cost 100; and the buy sequence
10 at 100 then 10 at 200 on fresh MSFT leaves quantity 20 at the weighted
average cost 150. -/
theorem recordBuy_weighted_average_witness :
    PortfolioService.add_holding stOne 7 "AAPL" 10 250 =
      ({ portfolios := [⟨1, 7⟩]
         holdings := [⟨2, 1, "AAPL", 20, 200⟩]
         transactions := [⟨3, 2, TransactionType.BUY, 10, 250, 3⟩]
         next_id := 4 },
       ⟨2, 1, "AAPL", 20, 200⟩) ∧
    PortfolioService.add_holding stOne 7 "MSFT" 5 100 =
      ({ portfolios := [⟨1, 7⟩]
         holdings := [⟨2, 1, "AAPL", 10, 150⟩, ⟨3, 1, "MSFT", 5, 100⟩]
         transactions := [⟨4, 3, TransactionType.BUY, 5, 100, 4⟩]
         next_id := 5 },
       ⟨3, 1, "MSFT", 5, 100⟩) ∧
    PortfolioRepository.get_holding_by_symbol
        (buyFold 7 "MSFT" stOne [(10, 100), (10, 200)]) 1 "MSFT" =
      some ⟨3, 1, "MSFT", 20, 150⟩ := by
  have hA : pyUpper "AAPL" = "AAPL" := by decide
  have hM : pyUpper "MSFT" = "MSFT" := by decide
  have hpf : PortfolioRepository.get_portfolio stOne 7 = some ⟨1, 7⟩ := by
    norm_num [PortfolioRepository.get_portfolio, stOne, List.find?_cons]
  have hhA : PortfolioRepository.get_holding_by_symbol stOne 1 "AAPL" =
      some ⟨2, 1, "AAPL", 10, 150⟩ := by
    norm_num [PortfolioRepository.get_holding_by_symbol, hA, stOne, List.find?_cons]
  have hhM : PortfolioRepository.get_holding_by_symbol stOne 1 "MSFT" = none := by
    norm_num [PortfolioRepository.get_holding_by_symbol, hM, stOne, List.find?_cons]
    decide
  refine ⟨?_, ?_, ?_⟩
  · rw [(recordBuy_weighted_average stOne 7 "AAPL" 10 250 ⟨1, 7⟩ hA hpf).1
      ⟨2, 1, "AAPL", 10, 150⟩ hhA]
    norm_num [stOne]
  · rw [(recordBuy_weighted_average stOne 7 "MSFT" 5 100 ⟨1, 7⟩ hM hpf).2.1 hhM]
    norm_num [stOne]
  · have h3 := (recordBuy_weighted_average stOne 7 "MSFT" 10 100 ⟨1, 7⟩ hM hpf).2.2
      [(10, 100), (10, 200)] (by simp) (by norm_num) hhM (by simp [stOne])
      (by simp [stOne])
    rw [show (stOne.next_id : Nat) = 3 from rfl] at h3
    rw [h3]
    norm_num
